import Mathlib

/-!
# Verification of the anyrouter check-in script (`checkin.py`)

A shallow embedding of the orchestration and state-comparison logic of the
check-in script.  External effects (the headless browser, the HTTP client and
the notification channel) are modelled as oracle inputs; the pure decision
logic (configuration validation, cookie parsing, response interpretation,
balance hashing, the per-account loop, the notification decision and the exit
code) is translated function by function from the source.

Python values appearing in the script are modelled as follows:

* JSON values are the inductive type `Json`; Python numbers (int and float
  alike) are modelled as exact rationals `ℚ`.
* Python dicts are association lists (`List (String × Json)`); the keys of a
  dict produced by `json.loads` are distinct, and lookups use the first match.
* Python strings are Lean `String`s; the slice `s[:n]` is `pyTake n s`,
  `str.strip` is whitespace trimming at both ends and `str.lower` maps
  `Char.toLower` over the characters (the script only lowercases ASCII text).
* Exceptions raised by collaborators (the HTTP client, `response.json()`,
  attribute errors on non-dict values) arrive as oracle inputs or are modelled
  by explicit error messages mirroring the CPython message text.
-/

/-- JSON values.  Python ints and floats are both modelled as `ℚ`. -/
inductive Json where
  | null : Json
  | bool (b : Bool) : Json
  | num (q : ℚ) : Json
  | str (s : String) : Json
  | arr (xs : List Json) : Json
  | obj (fields : List (String × Json)) : Json

/-- Python truthiness (`bool(x)`) of a JSON value: `None`, `False`, `0`,
`""`, `[]` and `\x7b\x7d` are falsy, everything else is truthy. -/
def pyTruthy : Json → Bool
  | .null => false
  | .bool b => b
  | .num q => q != 0
  | .str s => !s.isEmpty
  | .arr xs => !xs.isEmpty
  | .obj fs => !fs.isEmpty

/-- `d.get(k, default)` on a dict modelled as an association list. -/
def dictGetD (fields : List (String × Json)) (k : String) (d : Json) : Json :=
  (List.lookup k fields).getD d

/-- Python's `x == n` for a JSON value `x` and a numeric literal `n`
(`True == 1` and `False == 0` hold in Python; all non-numeric,
non-boolean values compare unequal to a number). -/
def pyEqNum (j : Json) (n : ℚ) : Bool :=
  match j with
  | .num m => m == n
  | .bool b => (if b then (1 : ℚ) else 0) == n
  | _ => false

/-- The Python slice `s[:n]` (by characters / code points). -/
def pyTake (n : Nat) (s : String) : String :=
  String.mk (s.data.take n)

/-- `str.strip()` on a character list: drop whitespace from both ends. -/
def stripChars (l : List Char) : List Char :=
  ((l.dropWhile Char.isWhitespace).reverse.dropWhile Char.isWhitespace).reverse

/-- `str.strip()`. -/
def pyStrip (s : String) : String :=
  String.mk (stripChars s.data)

/-- `str.split(sep)` for a one-character separator, on character lists:
splits at every occurrence of `c`, keeping empty parts (Python semantics). -/
def splitOnChar (c : Char) : List Char → List (List Char)
  | [] => [[]]
  | x :: xs =>
    if x = c then [] :: splitOnChar c xs
    else
      match splitOnChar c xs with
      | [] => [[x]]
      | p :: ps => (x :: p) :: ps

/-- Substring test on character lists (`pat in l` in Python). -/
def listContainsSub (l pat : List Char) : Bool :=
  l.tails.any (fun t => pat.isPrefixOf t)

/-- Python's `pat in s` substring test. -/
def containsSub (s pat : String) : Bool :=
  listContainsSub s.data pat.data

/-- `str.lower()` (the script only lowercases ASCII response text). -/
def pyLower (s : String) : String :=
  s.map Char.toLower

/-- The CPython type name of a JSON value (used in modelled runtime error
messages); rationals with denominator 1 print as `int`, others as `float`. -/
def Json.typeName : Json → String
  | .null => "NoneType"
  | .bool _ => "bool"
  | .num q => if q.den == 1 then "int" else "float"
  | .str _ => "str"
  | .arr _ => "list"
  | .obj _ => "dict"

/-- Modelled message of the `AttributeError` raised by `x.get(...)` when `x`
is not a dict. -/
def attrErrMsg (j : Json) : String :=
  "'" ++ j.typeName ++ "' object has no attribute 'get'"

/-- Modelled message of the `TypeError` raised by `x / 500000` when `x` is
neither a number nor a bool. -/
def divTypeErrMsg (j : Json) : String :=
  "unsupported operand type(s) for /: '" ++ j.typeName ++ "' and 'int'"

/-- `str(x)` for a JSON value, used only for account display names.  The
rendering of lists and dicts is abbreviated (no claim depends on it). -/
def pyStr : Json → String
  | .str s => s
  | .bool true => "True"
  | .bool false => "False"
  | .null => "None"
  | .num q => if q.den == 1 then toString q.num else toString q
  | .arr _ => "[...]"
  | .obj _ => "\x7b...\x7d"

/-! ## Config loader: `load_accounts` (checkin.py lines 42–73)

The environment variable's raw text and the `json.loads` step are modelled
together: the input is `none` when the variable is unset/empty or the JSON
fails to parse (all of these return `None` in the source), and `some j` when
it parses to the JSON value `j`. -/

/-- One validation pass over the parsed account array
(the `for i, account in enumerate(accounts_data)` loop): every element must
be a dict containing the keys `cookies` and `api_user`, and a `name` key, if
present, must be truthy. -/
def validAccount (j : Json) : Bool :=
  match j with
  | .obj fields =>
    (fields.any (fun p => p.1 == "cookies")) &&
    (fields.any (fun p => p.1 == "api_user")) &&
    (match List.lookup "name" fields with
     | some v => pyTruthy v
     | none => true)
  | _ => false

/-- `load_accounts()`: reject unless the parsed value is an array whose every
element passes validation; on any failure the whole configuration is
rejected (`None`). -/
def load_accounts (accounts_str : Option Json) : Option (List Json) :=
  match accounts_str with
  | none => none
  | some j =>
    match j with
    | .arr accounts_data =>
      if accounts_data.all validAccount then some accounts_data else none
    | _ => none

/-! ## Cookie parsing: `parse_cookies` (checkin.py lines 109–121) -/

/-- `cookies_dict[key] = value` on a dict modelled as an association list:
replace the value in place if the key exists, else append. -/
def dictInsert (d : List (String × Json)) (k : String) (v : Json) :
    List (String × Json) :=
  if d.any (fun p => p.1 == k) then
    d.map (fun p => if p.1 == k then (k, v) else p)
  else d ++ [(k, v)]

/-- One iteration of the `for cookie in cookies_data.split(';')` loop:
fragments containing `'='` are stripped and split at the first `'='`. -/
def cookieStep (d : List (String × Json)) (cookie : List Char) :
    List (String × Json) :=
  if cookie.any (fun c => c == '=') then
    let stripped := stripChars cookie
    let key := String.mk (stripped.takeWhile (fun c => c ≠ '='))
    let value := String.mk ((stripped.dropWhile (fun c => c ≠ '=')).drop 1)
    dictInsert d key (.str value)
  else d

/-- `parse_cookies(cookies_data)`: a dict is returned as is; a string is split
on `';'` into `key=value` fragments; anything else yields the empty dict.
String cookie values are wrapped in `Json.str` so both branches return a
dict of JSON values. -/
def parse_cookies (cookies_data : Json) : List (String × Json) :=
  match cookies_data with
  | .obj fields => fields
  | .str s => (splitOnChar ';' s.data).foldl cookieStep []
  | _ => []

/-! ## Numbers: Python float division, `round(x, 2)` and float `repr`

The script only manipulates quotients of integers by `500000` rounded to two
decimal places, so Python floats are modelled as exact rationals. -/

/-- Round a rational to the nearest integer, ties to even
(CPython's `round`). -/
def roundHalfEven (q : ℚ) : ℤ :=
  let f : ℤ := ⌊q⌋
  let r : ℚ := q - f
  if r < 1/2 then f
  else if 1/2 < r then f + 1
  else if f % 2 = 0 then f else f + 1

/-- Python's `round(x, 2)`. -/
def pyRound2 (q : ℚ) : ℚ :=
  (roundHalfEven (q * 100) : ℚ) / 100

/-- Decimal digits of a natural number (most significant first). -/
def natDigitsStr (n : Nat) : String :=
  String.mk ((Nat.toDigits 10 n))

/-- `repr` of a Python float modelled as a rational: integral values render
with a trailing `.0`; other terminating decimals render with the shortest
exact fraction part (the values produced by `round(_, 2)` have at most two
decimal places, for which this agrees with CPython's shortest-roundtrip
`repr`).  Rationals without a terminating decimal expansion (unreachable from
the script's arithmetic) fall back to `num/den`. -/
def floatRepr (q : ℚ) : String :=
  let sign := if q < 0 then "-" else ""
  let n := q.num.natAbs
  let d := q.den
  if d = 1 then sign ++ natDigitsStr n ++ ".0"
  else
    match (List.range 40).find? (fun k => 10 ^ (k + 1) % d = 0) with
    | some k =>
      let e := k + 1
      let scaled := n * 10 ^ e / d
      let intPart := scaled / 10 ^ e
      let fracPart := scaled % 10 ^ e
      let fracDigits := natDigitsStr fracPart
      let fracPadded :=
        String.mk (List.replicate (e - fracDigits.length) '0') ++ fracDigits
      sign ++ natDigitsStr intPart ++ "." ++ fracPadded
    | none => sign ++ natDigitsStr n ++ "/" ++ natDigitsStr d

/-! ## SHA-256 (`hashlib.sha256(...).hexdigest()`)

A byte-level implementation over `Nat`, with 32-bit words represented as
naturals reduced modulo `2 ^ 32`. -/

/-- `2 ^ 32`. -/
def M32 : Nat := 4294967296

/-- Right rotation of a 32-bit word. -/
def rotr32 (x n : Nat) : Nat :=
  ((x >>> n) ||| (x <<< (32 - n))) % M32

/-- The 64 round constants of SHA-256 (FIPS 180-4), written in decimal. -/
def sha256K : List Nat :=
  [1116352408, 1899447441, 3049323471, 3921009573, 961987163,
   1508970993, 2453635748, 2870763221, 3624381080, 310598401,
   607225278, 1426881987, 1925078388, 2162078206, 2614888103,
   3248222580, 3835390401, 4022224774, 264347078, 604807628,
   770255983, 1249150122, 1555081692, 1996064986, 2554220882,
   2821834349, 2952996808, 3210313671, 3336571891, 3584528711,
   113926993, 338241895, 666307205, 773529912, 1294757372,
   1396182291, 1695183700, 1986661051, 2177026350, 2456956037,
   2730485921, 2820302411, 3259730800, 3345764771, 3516065817,
   3600352804, 4094571909, 275423344, 430227734, 506948616,
   659060556, 883997877, 958139571, 1322822218, 1537002063,
   1747873779, 1955562222, 2024104815, 2227730452, 2361852424,
   2428436474, 2756734187, 3204031479, 3329325298]

/-- The eight initial hash words of SHA-256, written in decimal. -/
def sha256Init : List Nat :=
  [1779033703, 3144134277, 1013904242, 2773480762,
   1359893119, 2600822924, 528734635, 1541459225]

/-- Pad a byte message per SHA-256: append `0x80`, zeros, then the bit length
as eight big-endian bytes, reaching a multiple of 64 bytes. -/
def sha256Pad (msg : List Nat) : List Nat :=
  let L := msg.length
  let zeros := (119 - L % 64) % 64
  let bitLen := L * 8
  msg ++ [0x80] ++ List.replicate zeros 0 ++
    (List.range 8).map (fun j => (bitLen >>> (56 - 8 * j)) % 256)

/-- Split a list into chunks of 64 elements. -/
def chunks64 : List Nat → List (List Nat)
  | [] => []
  | x :: xs => (x :: xs).take 64 :: chunks64 ((x :: xs).drop 64)
termination_by l => l.length
decreasing_by
  simp only [List.length_drop, List.length_cons]
  omega

/-- Split a list into groups of 4 elements. -/
def groups4 : List Nat → List (List Nat)
  | [] => []
  | x :: xs => (x :: xs).take 4 :: groups4 ((x :: xs).drop 4)
termination_by l => l.length
decreasing_by
  simp only [List.length_drop, List.length_cons]
  omega

/-- Combine four big-endian bytes into a 32-bit word. -/
def word32OfBytes (bs : List Nat) : Nat :=
  bs.foldl (fun acc b => acc * 256 + b) 0

/-- Extend sixteen message words to the 64-word schedule. -/
def sha256Schedule (w16 : List Nat) : List Nat :=
  (List.range 48).foldl
    (fun w _ =>
      let i := w.length
      let s0v := w.getD (i - 15) 0
      let s1v := w.getD (i - 2) 0
      let s0 := (rotr32 s0v 7) ^^^ (rotr32 s0v 18) ^^^ (s0v >>> 3)
      let s1 := (rotr32 s1v 17) ^^^ (rotr32 s1v 19) ^^^ (s1v >>> 10)
      w ++ [(w.getD (i - 16) 0 + s0 + w.getD (i - 7) 0 + s1) % M32])
    w16

/-- One round of the SHA-256 compression function on the eight-word state. -/
def sha256Round (st : List Nat) (kw : Nat × Nat) : List Nat :=
  let a := st.getD 0 0
  let b := st.getD 1 0
  let c := st.getD 2 0
  let d := st.getD 3 0
  let e := st.getD 4 0
  let f := st.getD 5 0
  let g := st.getD 6 0
  let h := st.getD 7 0
  let S1 := (rotr32 e 6) ^^^ (rotr32 e 11) ^^^ (rotr32 e 25)
  let ch := (e &&& f) ^^^ ((M32 - 1 - e) &&& g)
  let temp1 := (h + S1 + ch + kw.1 + kw.2) % M32
  let S0 := (rotr32 a 2) ^^^ (rotr32 a 13) ^^^ (rotr32 a 22)
  let maj := (a &&& b) ^^^ (a &&& c) ^^^ (b &&& c)
  let temp2 := (S0 + maj) % M32
  [(temp1 + temp2) % M32, a, b, c, (d + temp1) % M32, e, f, g]

/-- Process one 64-byte chunk. -/
def sha256Compress (h : List Nat) (chunk : List Nat) : List Nat :=
  let w := sha256Schedule ((groups4 chunk).map word32OfBytes)
  let s := (sha256K.zip w).foldl sha256Round h
  (h.zip s).map (fun p => (p.1 + p.2) % M32)

/-- SHA-256 digest (32 bytes) of a byte message. -/
def sha256 (msg : List Nat) : List Nat :=
  let h := (chunks64 (sha256Pad msg)).foldl sha256Compress sha256Init
  ((h.map (fun w => [(w >>> 24) % 256, (w >>> 16) % 256, (w >>> 8) % 256, w % 256])).flatten)

/-- Lowercase hex digit. -/
def hexDigit (n : Nat) : Char :=
  Char.ofNat (if n < 10 then 48 + n else 87 + n)

/-- Lowercase hex rendering of a byte list (`hexdigest()`). -/
def hexOfBytes (bs : List Nat) : String :=
  String.mk ((bs.map (fun b => [hexDigit (b / 16), hexDigit (b % 16)])).flatten)

/-- UTF-8 encoding of a character as bytes (`str.encode('utf-8')`). -/
def utf8Char (c : Char) : List Nat :=
  let n := c.toNat
  if n < 0x80 then [n]
  else if n < 0x800 then [0xC0 + n / 64, 0x80 + n % 64]
  else if n < 0x10000 then
    [0xE0 + n / 4096, 0x80 + (n / 64) % 64, 0x80 + n % 64]
  else
    [0xF0 + n / 262144, 0x80 + (n / 4096) % 64, 0x80 + (n / 64) % 64,
     0x80 + n % 64]

/-- UTF-8 bytes of a string. -/
def utf8Str (s : String) : List Nat :=
  (s.data.map utf8Char).flatten

/-! ## Balance hashing (`generate_balance_hash`, checkin.py lines 96–101) -/

/-- A per-account balance entry (`\x7b'quota': ..., 'used': ...\x7d`). -/
structure BalanceVal where
  quota : ℚ
  used : ℚ
deriving DecidableEq

/-- JSON string escaping as performed by `json.dumps` with its default
`ensure_ascii=True` (characters outside `U+0020`–`U+007E` are `\uXXXX`
escaped; the balance keys are plain ASCII so only the plain path is
exercised). -/
def jsonEscapeChar (c : Char) : List Char :=
  if c = '"' then ['\\', '"']
  else if c = '\\' then ['\\', '\\']
  else if c = '\n' then ['\\', 'n']
  else if c = '\r' then ['\\', 'r']
  else if c = '\t' then ['\\', 't']
  else if 32 ≤ c.toNat ∧ c.toNat < 127 then [c]
  else
    ['\\', 'u', hexDigit (c.toNat / 4096 % 16), hexDigit (c.toNat / 256 % 16),
     hexDigit (c.toNat / 16 % 16), hexDigit (c.toNat % 16)]

/-- `json.dumps` of a string value. -/
def jsonStrLit (s : String) : String :=
  "\"" ++ String.mk ((s.data.map jsonEscapeChar).flatten) ++ "\""

/-- The `sort_keys=True` comparison: compare entries by their key, using the
code-point lexicographic string order (Lean's `≤` on `String` agrees with
Python's). -/
def keyLE (a b : String × ℚ) : Bool :=
  a.1 ≤ b.1

/-- `json.dumps(simple_balances, sort_keys=True, separators=(',', ':'))` for
a dict mapping strings to floats: entries sorted by key (code-point
lexicographic, as in Python) and joined with the compact separators. -/
def dumpsSortedNums (entries : List (String × ℚ)) : String :=
  let sorted := entries.mergeSort keyLE
  "\x7b" ++
    String.intercalate ","
      (sorted.map (fun p => jsonStrLit p.1 ++ ":" ++ floatRepr p.2)) ++
  "\x7d"

/-- `generate_balance_hash(balances)`: project each entry to its `quota`
value, dump to canonical sorted-key JSON, SHA-256 it and keep the first 16
hex characters. -/
def generate_balance_hash (balances : List (String × BalanceVal)) : String :=
  let simple : List (String × ℚ) :=
    if balances.isEmpty then [] else balances.map (fun p => (p.1, p.2.quota))
  let balance_json := dumpsSortedNums simple
  pyTake 16 (hexOfBytes (sha256 (utf8Str balance_json)))

/-! ## Session client: `get_user_info` (checkin.py lines 188–207)

The HTTP request is an oracle: it either raises (`HttpFetch.exn e`, covering
transport errors and a `response.json()` decode failure, whose message
arrives as `e`) or returns a status code with a parsed JSON body.  The body
is only consulted when the status is 200. -/

/-- The outcome of the profile `GET` as seen by `get_user_info`. -/
inductive HttpFetch where
  | exn (msg : String) : HttpFetch
  | resp (status : Nat) (body : Json) : HttpFetch

/-- The user-info record returned by `get_user_info`
(`\x7b'success': True, 'quota': ..., 'used_quota': ..., 'display': ...\x7d`
or `\x7b'success': False, 'error': ...\x7d`). -/
inductive UserInfo where
  | ok (quota used_quota : ℚ) (display : String) : UserInfo
  | failure (error : String) : UserInfo
deriving DecidableEq

/-- `format_balance_display(quota, used)` (checkin.py lines 24–30). -/
def format_balance_display (quota used : ℚ) : String :=
  ":money: Current balance\n    • Remaining: $" ++ floatRepr quota ++
    "\n    • Used: $" ++ floatRepr used

/-- `x / 500000` for a JSON field value: numbers divide exactly, Python bools
are ints (`True / 500000 == 2e-06`), anything else raises a `TypeError`
(propagated as an `Except.error` carrying the modelled message). -/
def asDivNum (j : Json) : Except String ℚ :=
  match j with
  | .num q => .ok q
  | .bool b => .ok (if b then 1 else 0)
  | _ => .error (divTypeErrMsg j)

/-- The body of `get_user_info`'s `try` block after a 200 response, with
exceptions (`AttributeError` on non-dict values, `TypeError` on non-numeric
quota fields) modelled as `Except.error`. -/
def userInfoOf200 (body : Json) : Except String UserInfo :=
  match body with
  | .obj fields =>
    if pyTruthy (dictGetD fields "success" .null) then
      match dictGetD fields "data" (.obj []) with
      | .obj ufields =>
        match asDivNum (dictGetD ufields "quota" (.num 0)),
            asDivNum (dictGetD ufields "used_quota" (.num 0)) with
        | .error e, _ => .error e
        | .ok _, .error e => .error e
        | .ok rawQ, .ok rawU =>
          let quota := pyRound2 (rawQ / 500000)
          let used_quota := pyRound2 (rawU / 500000)
          .ok (.ok quota used_quota (format_balance_display quota used_quota))
      | other => .error (attrErrMsg other)
    else .ok (.failure "Failed to get user info: HTTP 200")
  | other => .error (attrErrMsg other)

/-- `get_user_info(client, headers)`: total over every oracle outcome — it
never raises.  Exceptions anywhere in the `try` block produce a failure
record whose embedded exception text is cut to 50 characters. -/
def get_user_info (r : HttpFetch) : UserInfo :=
  match r with
  | .exn e => .failure ("Failed to get user info: " ++ pyTake 50 e ++ "...")
  | .resp status body =>
    if status = 200 then
      match userInfoOf200 body with
      | .ok u => u
      | .error e =>
        .failure ("Failed to get user info: " ++ pyTake 50 e ++ "...")
    else .failure ("Failed to get user info: HTTP " ++ toString status)

/-! ## Session client: `check_in_account` (checkin.py lines 210–299)

Oracles: the WAF-cookie acquisition (`none` on failure), the profile fetch
and the check-in `POST`.  The `POST` outcome carries the status code, the raw
response text, and the result of `response.json()` (`Except.error` with the
decode-error message when the text is not valid JSON). -/

/-- The outcome of the check-in `POST`. -/
inductive CheckInResp where
  | exn (msg : String) : CheckInResp
  | resp (status : Nat) (text : String) (body : Except String Json) :
      CheckInResp

/-- The external collaborators consumed by one `check_in_account` call. -/
structure CheckInEnv where
  waf : Option (List (String × String))
  fetch : HttpFetch
  post : CheckInResp

/-- `check_in_account(account_info, account_index)`.  Returns the
`(success, user_info)` pair.  The early `return False, None` paths (missing
`api_user`, unparsable cookies, missing WAF cookies) fire before the browser
or the HTTP client are consulted; an exception anywhere in the `try` block —
including the `AttributeError` from `result.get` on a non-dict JSON body —
lands in the outer `except` and yields `(False, None)`. -/
def check_in_account (account : List (String × Json)) (env : CheckInEnv) :
    Bool × Option UserInfo :=
  let api_user := dictGetD account "api_user" (.str "")
  if !pyTruthy api_user then (false, none)
  else
    let user_cookies := parse_cookies (dictGetD account "cookies" (.obj []))
    if user_cookies.isEmpty then (false, none)
    else
      match env.waf with
      | none => (false, none)
      | some waf =>
        -- `if not waf_cookies` is also falsy for an empty cookie dict
        if waf.isEmpty then (false, none)
        else
        let user_info := get_user_info env.fetch
        match env.post with
        | .exn _ => (false, none)
        | .resp status text body =>
          if status = 200 then
            match body with
            | .ok (.obj fields) =>
              if pyEqNum (dictGetD fields "ret" .null) 1 ||
                 pyEqNum (dictGetD fields "code" .null) 0 ||
                 pyTruthy (dictGetD fields "success" .null) then
                (true, some user_info)
              else (false, some user_info)
            | .ok _ => (false, none)
            | .error _ =>
              if containsSub (pyLower text) "success" then
                (true, some user_info)
              else (false, some user_info)
          else (false, some user_info)

/-! ## Orchestrator: `main` (checkin.py lines 302–442) and `run_main`
(lines 445–454)

The per-account effects of `check_in_account` are an oracle
`env : Nat → CheckInOutcome` giving, for each account index, either the pair
the call returned or the exception it raised. -/

/-- `get_account_display_name(account_info, account_index)`
(checkin.py lines 104–106). -/
def get_account_display_name (account : Json) (i : Nat) : String :=
  match account with
  | .obj fields =>
    match List.lookup "name" fields with
    | some v => pyStr v
    | none => "Account " ++ toString (i + 1)
  | _ => "Account " ++ toString (i + 1)

/-- What `await check_in_account(account, i)` did for one account: returned a
`(success, user_info)` pair, or raised with the given message. -/
inductive CheckInOutcome where
  | ret (success : Bool) (info : Option UserInfo) : CheckInOutcome
  | exn (msg : String) : CheckInOutcome

/-- One entry of `account_results`. -/
structure AccountResult where
  name : String
  success : Bool
  detail : String
deriving DecidableEq

/-- The loop state accumulated by the `for i, account in enumerate(accounts)`
loop. -/
structure LoopState where
  success_count : Nat
  account_results : List AccountResult
  current_balances : List (String × BalanceVal)
  need_notify : Bool
deriving DecidableEq

/-- The loop body for account `i` (checkin.py lines 327–360). -/
def accountStep (st : LoopState) (account : Json) (i : Nat)
    (outcome : CheckInOutcome) : LoopState :=
  let account_key := "account_" ++ toString (i + 1)
  let account_name := get_account_display_name account i
  match outcome with
  | .ret success info =>
    let success_count :=
      if success then st.success_count + 1 else st.success_count
    let detail_message :=
      match info with
      | some (.ok q u _) =>
        "剩余额度：`$" ++ floatRepr q ++ "` · 已使用：`$" ++ floatRepr u ++ "`"
      | some (.failure e) => e
      | none => ""
    let current_balances :=
      match info with
      | some (.ok q u _) => st.current_balances ++ [(account_key, ⟨q, u⟩)]
      | _ => st.current_balances
    { success_count := success_count
      account_results := st.account_results ++
        [{ name := account_name, success := success, detail := detail_message }]
      current_balances := current_balances
      need_notify := st.need_notify || !success }
  | .exn msg =>
    { success_count := st.success_count
      account_results := st.account_results ++
        [{ name := account_name, success := false,
           detail := "异常：" ++ pyTake 50 msg ++ "..." }]
      current_balances := st.current_balances
      need_notify := true }

/-- The whole per-account loop, starting at index `i`. -/
def runLoopFrom (env : Nat → CheckInOutcome) (i : Nat) :
    List Json → LoopState → LoopState
  | [], st => st
  | account :: rest, st =>
    runLoopFrom env (i + 1) rest (accountStep st account i (env i))

/-- The per-account loop from the initial state
(`success_count = 0`, empty results and balances, `need_notify = False`). -/
def runLoop (accounts : List Json) (env : Nat → CheckInOutcome) : LoopState :=
  runLoopFrom env 0 accounts ⟨0, [], [], false⟩

/-- One entry of `balances_for_notification`. -/
structure NotifBalance where
  name : String
  quota : ℚ
  used : ℚ
deriving DecidableEq

/-- Everything `main` decides after the loop (checkin.py lines 362–442):
the computed hash, the notification flags, the persisted file content and
the exit code.  `last_hash` is what `load_balance_hash()` returned (the
stripped file content, or `None` when the file is absent or unreadable). -/
structure MainOutput where
  success_count : Nat
  total_count : Nat
  account_results : List AccountResult
  current_balances : List (String × BalanceVal)
  current_hash : Option String
  need_notify : Bool
  balance_changed : Bool
  balances_for_notification : List NotifBalance
  notified : Bool
  final_hash_file : Option String
  exit_code : Nat

/-- The post-loop stage of `main` for a loaded, non-empty account list. -/
def mainAfterLoop (accounts : List Json) (env : Nat → CheckInOutcome)
    (last_hash : Option String) : MainOutput :=
  let st := runLoop accounts env
  let current_balance_hash :=
    if !st.current_balances.isEmpty then
      some (generate_balance_hash st.current_balances)
    else none
  let need_notify :=
    match current_balance_hash with
    | some c =>
      match last_hash with
      | none => true
      | some l => if c != l then true else st.need_notify
    | none => st.need_notify
  let balance_changed :=
    match current_balance_hash with
    | some c =>
      match last_hash with
      | none => true
      | some l => c != l
    | none => false
  let balances_for_notification :=
    if balance_changed then
      (accounts.enum.filterMap (fun p =>
        let account_key := "account_" ++ toString (p.1 + 1)
        (List.lookup account_key st.current_balances).map (fun bv =>
          { name := get_account_display_name p.2 p.1, quota := bv.quota,
            used := bv.used })))
    else []
  let final_hash_file :=
    match current_balance_hash with
    | some c => some c
    | none => last_hash
  { success_count := st.success_count
    total_count := accounts.length
    account_results := st.account_results
    current_balances := st.current_balances
    current_hash := current_balance_hash
    need_notify := need_notify
    balance_changed := balance_changed
    balances_for_notification := balances_for_notification
    notified := need_notify &&
      (!st.account_results.isEmpty || !balances_for_notification.isEmpty)
    final_hash_file := final_hash_file
    exit_code := if st.success_count > 0 then 0 else 1 }

/-- The result of `main()`: either the early `sys.exit(1)` taken when
`load_accounts()` returns `None` or an empty list (`if not accounts`), or a
full run. -/
inductive MainOutcome where
  | configFailure : MainOutcome
  | ran (out : MainOutput) : MainOutcome

/-- `main()` from the parsed configuration onwards. -/
def mainRun (accounts_str : Option Json) (env : Nat → CheckInOutcome)
    (last_hash : Option String) : MainOutcome :=
  match load_accounts accounts_str with
  | none => .configFailure
  | some accounts =>
    if accounts.isEmpty then .configFailure
    else .ran (mainAfterLoop accounts env last_hash)

/-- The exit code of a `main()` outcome. -/
def mainExitCode : MainOutcome → Nat
  | .configFailure => 1
  | .ran out => out.exit_code

/-- How the top-level `asyncio.run(main())` terminated. -/
inductive TopEvent where
  | normal : TopEvent
  | keyboardInterrupt : TopEvent
  | exception (msg : String) : TopEvent

/-- `run_main()`: the process exit code, with `KeyboardInterrupt` and any
other top-level exception both mapped to `1`. -/
def run_main (ev : TopEvent) (accounts_str : Option Json)
    (env : Nat → CheckInOutcome) (last_hash : Option String) : Nat :=
  match ev with
  | .normal => mainExitCode (mainRun accounts_str env last_hash)
  | .keyboardInterrupt => 1
  | .exception _ => 1

/-! ## Characterizing the per-account loop -/

/-- Whether an outcome counts as a successful check-in. -/
def outcomeSuccess : CheckInOutcome → Bool
  | .ret s _ => s
  | .exn _ => false

/-- Whether an outcome carries a successful profile read. -/
def profileOk : CheckInOutcome → Bool
  | .ret _ (some (.ok _ _ _)) => true
  | _ => false

/-- The `account_results` entry produced for one account. -/
def resultOf (account : Json) (i : Nat) : CheckInOutcome → AccountResult
  | .ret success info =>
    { name := get_account_display_name account i
      success := success
      detail :=
        match info with
        | some (.ok q u _) =>
          "剩余额度：`$" ++ floatRepr q ++ "` · 已使用：`$" ++ floatRepr u ++ "`"
        | some (.failure e) => e
        | none => "" }
  | .exn msg =>
    { name := get_account_display_name account i
      success := false
      detail := "异常：" ++ pyTake 50 msg ++ "..." }

/-- The `current_balances` entry produced for one account, if any. -/
def balanceOf (i : Nat) : CheckInOutcome → Option (String × BalanceVal)
  | .ret _ (some (.ok q u _)) => some ("account_" ++ toString (i + 1), ⟨q, u⟩)
  | _ => none

/-- The list of results the loop appends, starting at index `i`. -/
def loopResults (env : Nat → CheckInOutcome) (i : Nat) :
    List Json → List AccountResult
  | [] => []
  | account :: rest => resultOf account i (env i) :: loopResults env (i + 1) rest

/-- The balances the loop collects, starting at index `i`. -/
def loopBalances (env : Nat → CheckInOutcome) (i : Nat) :
    List Json → List (String × BalanceVal)
  | [] => []
  | _ :: rest => (balanceOf i (env i)).toList ++ loopBalances env (i + 1) rest

/-- The number of successes among indices `i, i+1, …`. -/
def loopSuccessCount (env : Nat → CheckInOutcome) (i : Nat) :
    List Json → Nat
  | [] => 0
  | _ :: rest =>
    (if outcomeSuccess (env i) then 1 else 0) + loopSuccessCount env (i + 1) rest

/-- Whether any account starting at index `i` fails (or raises). -/
def loopAnyFail (env : Nat → CheckInOutcome) (i : Nat) : List Json → Bool
  | [] => false
  | _ :: rest => !outcomeSuccess (env i) || loopAnyFail env (i + 1) rest

theorem accountStep_eq (st : LoopState) (account : Json) (i : Nat)
    (o : CheckInOutcome) :
    accountStep st account i o =
      { success_count := st.success_count + (if outcomeSuccess o then 1 else 0)
        account_results := st.account_results ++ [resultOf account i o]
        current_balances := st.current_balances ++ (balanceOf i o).toList
        need_notify := st.need_notify || !outcomeSuccess o } := by
  rcases o with ⟨s, info⟩ | msg
  · rcases info with _ | u
    · cases s <;> simp [accountStep, resultOf, balanceOf, outcomeSuccess]
    · rcases u with ⟨q, uu, d⟩ | e <;> cases s <;>
        simp [accountStep, resultOf, balanceOf, outcomeSuccess]
  · simp [accountStep, resultOf, balanceOf, outcomeSuccess]

theorem runLoopFrom_eq (env : Nat → CheckInOutcome) (accounts : List Json)
    (i : Nat) (st : LoopState) :
    runLoopFrom env i accounts st =
      { success_count := st.success_count + loopSuccessCount env i accounts
        account_results := st.account_results ++ loopResults env i accounts
        current_balances := st.current_balances ++ loopBalances env i accounts
        need_notify := st.need_notify || loopAnyFail env i accounts } := by
  induction accounts generalizing i st with
  | nil => simp [runLoopFrom, loopResults, loopBalances, loopSuccessCount,
      loopAnyFail]
  | cons a rest ih =>
    rw [runLoopFrom, accountStep_eq, ih]
    simp [loopResults, loopBalances, loopSuccessCount, loopAnyFail,
      Bool.or_assoc, Nat.add_assoc]

theorem runLoop_eq (accounts : List Json) (env : Nat → CheckInOutcome) :
    runLoop accounts env =
      { success_count := loopSuccessCount env 0 accounts
        account_results := loopResults env 0 accounts
        current_balances := loopBalances env 0 accounts
        need_notify := loopAnyFail env 0 accounts } := by
  rw [runLoop, runLoopFrom_eq]
  simp

theorem loopResults_length (env : Nat → CheckInOutcome) (accounts : List Json)
    (i : Nat) : (loopResults env i accounts).length = accounts.length := by
  induction accounts generalizing i with
  | nil => rfl
  | cons a rest ih => simp [loopResults, ih]

theorem loopSuccessCount_le (env : Nat → CheckInOutcome)
    (accounts : List Json) (i : Nat) :
    loopSuccessCount env i accounts ≤ accounts.length := by
  induction accounts generalizing i with
  | nil => simp [loopSuccessCount]
  | cons a rest ih =>
    simp only [loopSuccessCount, List.length_cons]
    have := ih (i + 1)
    split <;> omega

theorem resultOf_success (account : Json) (i : Nat) (o : CheckInOutcome) :
    (resultOf account i o).success = outcomeSuccess o := by
  cases o <;> rfl

theorem loopAnyFail_iff (env : Nat → CheckInOutcome) (accounts : List Json)
    (i : Nat) :
    loopAnyFail env i accounts = true ↔
      ∃ r ∈ loopResults env i accounts, r.success = false := by
  induction accounts generalizing i with
  | nil => simp [loopAnyFail, loopResults]
  | cons a rest ih =>
    simp only [loopAnyFail, loopResults, Bool.or_eq_true, Bool.not_eq_eq_eq_not,
      Bool.not_true, List.mem_cons, ih]
    constructor
    · rintro (h | ⟨r, hr, hs⟩)
      · exact ⟨resultOf a i (env i), Or.inl rfl, by
          rw [resultOf_success]; simpa using h⟩
      · exact ⟨r, Or.inr hr, hs⟩
    · rintro ⟨r, hr | hr, hs⟩
      · left
        rw [hr] at hs
        rw [resultOf_success] at hs
        simpa using hs
      · exact Or.inr ⟨r, hr, hs⟩

theorem loopResults_getElem (env : Nat → CheckInOutcome)
    (accounts : List Json) (i j : Nat) (hj : j < accounts.length) :
    (loopResults env i accounts)[j]? =
      some (resultOf accounts[j] (i + j) (env (i + j))) := by
  induction accounts generalizing i j with
  | nil => simp at hj
  | cons a rest ih =>
    cases j with
    | zero => simp [loopResults]
    | succ j' =>
      have h' : j' < rest.length := by simpa using hj
      have hrec := ih (i + 1) j' h'
      have e : i + 1 + j' = i + (j' + 1) := by omega
      rw [e] at hrec
      simpa only [loopResults, List.getElem?_cons_succ, List.getElem_cons_succ]
        using hrec

theorem balanceOf_toList_nil (i : Nat) (o : CheckInOutcome) :
    ((balanceOf i o).toList = []) ↔ profileOk o = false := by
  rcases o with ⟨s, info⟩ | msg
  · rcases info with _ | u
    · simp [balanceOf, profileOk]
    · rcases u with ⟨q, uu, d⟩ | e <;> simp [balanceOf, profileOk]
  · simp [balanceOf, profileOk]

theorem loopBalances_isEmpty_iff (env : Nat → CheckInOutcome)
    (accounts : List Json) (i : Nat) :
    loopBalances env i accounts = [] ↔
      ∀ j, j < accounts.length → profileOk (env (i + j)) = false := by
  induction accounts generalizing i with
  | nil => simp [loopBalances]
  | cons a rest ih =>
    simp only [loopBalances, List.append_eq_nil, ih, List.length_cons,
      balanceOf_toList_nil]
    constructor
    · rintro ⟨h1, h2⟩ j hj
      cases j with
      | zero => simpa using h1
      | succ j' =>
        have hr := h2 j' (by omega)
        have e : i + 1 + j' = i + (j' + 1) := by omega
        rw [e] at hr
        exact hr
    · intro h
      refine ⟨by simpa using h 0 (by omega), fun j hj => ?_⟩
      have hr := h (j + 1) (by omega)
      have e : i + (j + 1) = i + 1 + j := by omega
      rw [e] at hr
      exact hr

/-! ## Projections of `mainAfterLoop` -/

theorem mainAfterLoop_results (a : List Json) (e : Nat → CheckInOutcome)
    (l : Option String) :
    (mainAfterLoop a e l).account_results = (runLoop a e).account_results :=
  rfl

theorem mainAfterLoop_success_count (a : List Json)
    (e : Nat → CheckInOutcome) (l : Option String) :
    (mainAfterLoop a e l).success_count = (runLoop a e).success_count :=
  rfl

theorem mainAfterLoop_current_hash (a : List Json) (e : Nat → CheckInOutcome)
    (l : Option String) :
    (mainAfterLoop a e l).current_hash =
      (if !(runLoop a e).current_balances.isEmpty
       then some (generate_balance_hash (runLoop a e).current_balances)
       else none) :=
  rfl

theorem mainAfterLoop_exit_code (a : List Json) (e : Nat → CheckInOutcome)
    (l : Option String) :
    (mainAfterLoop a e l).exit_code =
      (if (runLoop a e).success_count > 0 then 0 else 1) :=
  rfl

theorem mainAfterLoop_final_hash_file (a : List Json)
    (e : Nat → CheckInOutcome) (l : Option String) :
    (mainAfterLoop a e l).final_hash_file =
      (match (mainAfterLoop a e l).current_hash with
       | some c => some c
       | none => l) :=
  rfl

theorem mainAfterLoop_need_notify (a : List Json) (e : Nat → CheckInOutcome)
    (l : Option String) :
    (mainAfterLoop a e l).need_notify =
      ((runLoop a e).need_notify ||
        (match (mainAfterLoop a e l).current_hash, l with
         | some _, none => true
         | some c, some lh => c != lh
         | none, _ => false)) := by
  rw [show (mainAfterLoop a e l).need_notify =
      (match (mainAfterLoop a e l).current_hash with
       | some c =>
         match l with
         | none => true
         | some lh => if c != lh then true else (runLoop a e).need_notify
       | none => (runLoop a e).need_notify) from rfl]
  rcases (mainAfterLoop a e l).current_hash with _ | c
  · simp
  · rcases l with _ | lh
    · simp
    · by_cases hc : c = lh <;> simp [hc]

theorem mainAfterLoop_notified_imp (a : List Json) (e : Nat → CheckInOutcome)
    (l : Option String) :
    (mainAfterLoop a e l).need_notify = false →
      (mainAfterLoop a e l).notified = false := by
  intro h
  rw [show (mainAfterLoop a e l).notified =
      ((mainAfterLoop a e l).need_notify &&
        (!(runLoop a e).account_results.isEmpty ||
          !(mainAfterLoop a e l).balances_for_notification.isEmpty)) from rfl]
  rw [h]
  rfl

/-! ## Concrete fixtures used by witnesses -/

/-- A minimal valid account record. -/
def acctW : Json := .obj [("cookies", .str "a=1"), ("api_user", .str "u1")]

/-- An oracle where every account checks in successfully with no profile
data. -/
def envW : Nat → CheckInOutcome := fun _ => .ret true none

/-- An oracle where account 0 raises and the rest succeed. -/
def envExn : Nat → CheckInOutcome := fun i =>
  if i = 0 then .exn "boom" else .ret true none

/-- An oracle where every account checks in and reads a balance. -/
def envProf : Nat → CheckInOutcome := fun _ =>
  .ret true (some (.ok 5 2 "d"))

/-- A parsed configuration holding the single account `acctW`. -/
def cfgW : Option Json := some (.arr [acctW])

/-! ## Claims about the orchestrator -/

/-- **C1.** After the per-account loop, `need_notify` is true exactly when at
least one account's result is a failure, or a previously persisted hash
exists and differs from the hash computed from the collected balances, or no
previous hash exists and the computed current hash is non-null; and when
`need_notify` is false no notification is attempted. -/
theorem claim_C1_need_notify_policy (accounts : List Json)
    (env : Nat → CheckInOutcome) (last : Option String) :
    ((mainAfterLoop accounts env last).need_notify = true ↔
      ((∃ r ∈ (mainAfterLoop accounts env last).account_results,
          r.success = false) ∨
        (∃ lh c, last = some lh ∧
          (mainAfterLoop accounts env last).current_hash = some c ∧ c ≠ lh) ∨
        (last = none ∧
          (mainAfterLoop accounts env last).current_hash.isSome = true))) ∧
    ((mainAfterLoop accounts env last).need_notify = false →
      (mainAfterLoop accounts env last).notified = false) := by
  refine ⟨?_, mainAfterLoop_notified_imp accounts env last⟩
  have hnn : ((runLoop accounts env).need_notify = true ↔
      ∃ r ∈ (runLoop accounts env).account_results, r.success = false) := by
    rw [runLoop_eq]
    exact loopAnyFail_iff env accounts 0
  rw [mainAfterLoop_need_notify, mainAfterLoop_results]
  rcases hcur : (mainAfterLoop accounts env last).current_hash with _ | c
  · rcases last with _ | lh <;> simp [hnn]
  · rcases last with _ | lh
    · simp
    · by_cases hc : c = lh <;> simp [hc, hnn]

/-- Witness for C1 at a concrete input: one account that checks in
successfully with no balance read and an unchanged stored hash gives
`need_notify = false`, so no notification is attempted. -/
theorem claim_C1_witness :
    (mainAfterLoop [acctW] envW (some "x")).need_notify = false ∧
    (mainAfterLoop [acctW] envW (some "x")).notified = false :=
  ⟨by decide,
   (claim_C1_need_notify_policy [acctW] envW (some "x")).2 (by decide)⟩

/-- **C2.** The process exit code is `0` iff at least one account's check-in
succeeded; it is `1` when no account succeeded, when the configuration fails
to load or yields zero accounts (exiting before any account processing), and
on a top-level exception or keyboard interrupt. -/
theorem claim_C2_exit_code (j : Option Json) (env : Nat → CheckInOutcome)
    (last : Option String) :
    run_main .keyboardInterrupt j env last = 1 ∧
    (∀ m, run_main (.exception m) j env last = 1) ∧
    mainRun none env last = .configFailure ∧
    mainRun (some (.arr [])) env last = .configFailure ∧
    run_main .normal none env last = 1 ∧
    run_main .normal (some (.arr [])) env last = 1 ∧
    (∀ out, mainRun j env last = .ran out →
      (out.exit_code = if 1 ≤ out.success_count then 0 else 1) ∧
      (run_main .normal j env last = 0 ↔ 1 ≤ out.success_count)) ∧
    (mainRun j env last = .configFailure → run_main .normal j env last = 1) := by
  refine ⟨rfl, fun m => rfl, rfl, rfl, rfl, rfl, ?_, ?_⟩
  · intro out hout
    have hout' : ∃ accounts, out = mainAfterLoop accounts env last := by
      unfold mainRun at hout
      rcases hacc : load_accounts j with _ | accounts
      · rw [hacc] at hout
        cases hout
      · rw [hacc] at hout
        dsimp only at hout
        by_cases he : accounts.isEmpty
        · rw [if_pos he] at hout
          cases hout
        · rw [if_neg he] at hout
          cases hout
          exact ⟨accounts, rfl⟩
    obtain ⟨accounts, rfl⟩ := hout'
    have hec : (mainAfterLoop accounts env last).exit_code =
        if 1 ≤ (mainAfterLoop accounts env last).success_count then 0
        else 1 := by
      rw [mainAfterLoop_exit_code, mainAfterLoop_success_count]
      rcases Nat.eq_zero_or_pos (runLoop accounts env).success_count with h | h
      · simp [h]
      · simp [h, Nat.one_le_iff_ne_zero.mpr (Nat.pos_iff_ne_zero.mp h)]
    refine ⟨hec, ?_⟩
    have hrm : run_main .normal j env last =
        (mainAfterLoop accounts env last).exit_code := by
      unfold run_main mainExitCode
      rw [hout]
    rw [hrm, hec]
    by_cases h1 : 1 ≤ (mainAfterLoop accounts env last).success_count
    · simp [h1]
    · simp [h1]
  · intro hcf
    unfold run_main mainExitCode
    rw [hcf]

/-- Witness for C2 at a concrete input: a valid single-account configuration
whose account checks in successfully exits with code 0. -/
theorem claim_C2_witness :
    (mainAfterLoop [acctW] envW none).exit_code = 0 ∧
    run_main .normal cfgW envW none = 0 := by
  obtain ⟨_, _, _, _, _, _, hran, _⟩ := claim_C2_exit_code cfgW envW none
  obtain ⟨hec, hiff⟩ := hran (mainAfterLoop [acctW] envW none) rfl
  refine ⟨?_, hiff.mpr (by decide)⟩
  rw [hec]
  decide

/-- **C7.** For every well-formed account list of length `N ≥ 1` the loop
produces exactly `N` result entries with `success_count ≤ N`, and an
exception at one account is recorded as a failed result whose message is
truncated to 50 characters without stopping the remaining accounts. -/
theorem claim_C7_loop_isolation (accounts : List Json)
    (env : Nat → CheckInOutcome) (last : Option String)
    (_hN : 1 ≤ accounts.length) :
    (mainAfterLoop accounts env last).account_results.length =
      accounts.length ∧
    (mainAfterLoop accounts env last).success_count ≤ accounts.length ∧
    (∀ i msg (hi : i < accounts.length), env i = .exn msg →
      (mainAfterLoop accounts env last).account_results[i]? =
        some { name := get_account_display_name accounts[i] i
               success := false
               detail := "异常：" ++ pyTake 50 msg ++ "..." }) := by
  refine ⟨?_, ?_, ?_⟩
  · rw [mainAfterLoop_results, runLoop_eq]
    exact loopResults_length env accounts 0
  · rw [mainAfterLoop_success_count, runLoop_eq]
    exact loopSuccessCount_le env accounts 0
  · intro i msg hi hexn
    rw [mainAfterLoop_results, runLoop_eq]
    show (loopResults env 0 accounts)[i]? = _
    rw [loopResults_getElem env accounts 0 i hi]
    rw [Nat.zero_add, hexn]
    rfl

/-- Witness for C7 at a concrete input: two accounts, the first raising
`"boom"`; both are processed, the first is recorded as a truncated-message
failure. -/
theorem claim_C7_witness :
    (mainAfterLoop [acctW, acctW] envExn none).account_results.length = 2 ∧
    (mainAfterLoop [acctW, acctW] envExn none).account_results[0]? =
      some { name := "Account 1", success := false,
             detail := "异常：boom..." } := by
  obtain ⟨hlen, _, hexn⟩ :=
    claim_C7_loop_isolation [acctW, acctW] envExn none (by decide)
  refine ⟨hlen, ?_⟩
  rw [hexn 0 "boom" (by decide) rfl]
  decide

/-- **C8.** Whenever the computed current balance hash is non-null — that is,
at least one account produced a successful profile read — it is persisted to
the hash file at the end of the run; when it is null the stored hash is left
unchanged. -/
theorem claim_C8_hash_persistence (accounts : List Json)
    (env : Nat → CheckInOutcome) (last : Option String) :
    (∀ h, (mainAfterLoop accounts env last).current_hash = some h →
      (mainAfterLoop accounts env last).final_hash_file = some h) ∧
    ((mainAfterLoop accounts env last).current_hash = none →
      (mainAfterLoop accounts env last).final_hash_file = last) ∧
    ((mainAfterLoop accounts env last).current_hash.isSome = true ↔
      ∃ i, i < accounts.length ∧ profileOk (env i) = true) := by
  refine ⟨?_, ?_, ?_⟩
  · intro h hc
    rw [mainAfterLoop_final_hash_file, hc]
  · intro hc
    rw [mainAfterLoop_final_hash_file, hc]
  · rw [mainAfterLoop_current_hash]
    have hb : (runLoop accounts env).current_balances =
        loopBalances env 0 accounts := by
      rw [runLoop_eq]
    rw [hb]
    by_cases he : loopBalances env 0 accounts = []
    · simp only [he, List.isEmpty_nil, Bool.not_true, Bool.false_eq_true,
        if_false, Option.isSome_none]
      constructor
      · intro hfalse
        cases hfalse
      · rintro ⟨i, hi, hp⟩
        have hall := (loopBalances_isEmpty_iff env accounts 0).mp he i hi
        rw [Nat.zero_add] at hall
        rw [hall] at hp
        cases hp
    · have he' : (loopBalances env 0 accounts).isEmpty = false := by
        rcases hE : loopBalances env 0 accounts with _ | ⟨p, rest⟩
        · exact absurd hE he
        · rfl
      simp only [he', Bool.not_false, if_true, Option.isSome_some, true_iff]
      by_contra hnone
      push_neg at hnone
      apply he
      rw [loopBalances_isEmpty_iff env accounts 0]
      intro jj hj
      rw [Nat.zero_add]
      have := hnone jj hj
      revert this
      cases profileOk (env jj)
      · intro _
        rfl
      · intro hfalse
        exact absurd rfl hfalse

/-- Witness for C8 at a concrete input: one account with a successful
profile read; the computed hash is persisted. -/
theorem claim_C8_witness :
    (mainAfterLoop [acctW] envProf none).current_hash =
      some (generate_balance_hash [("account_1", ⟨5, 2⟩)]) ∧
    (mainAfterLoop [acctW] envProf none).final_hash_file =
      some (generate_balance_hash [("account_1", ⟨5, 2⟩)]) :=
  ⟨rfl, (claim_C8_hash_persistence [acctW] envProf none).1 _ rfl⟩

/-! ## The balance hash depends only on the quota map -/

theorem keyLE_trans (a b c : String × ℚ) (hab : keyLE a b = true)
    (hbc : keyLE b c = true) : keyLE a c = true := by
  simp only [keyLE, decide_eq_true_eq] at *
  exact le_trans hab hbc

theorem keyLE_total (a b : String × ℚ) : (keyLE a b || keyLE b a) = true := by
  simp only [keyLE, Bool.or_eq_true, decide_eq_true_eq]
  exact le_total a.1 b.1

/-- Sorting by key sends any two permuted entry lists with duplicate-free
keys to the same list. -/
theorem mergeSort_keyLE_eq (l1 l2 : List (String × ℚ))
    (hnd : (l1.map Prod.fst).Nodup) (hp : l1.Perm l2) :
    l1.mergeSort keyLE = l2.mergeSort keyLE := by
  have hperm : (l1.mergeSort keyLE).Perm (l2.mergeSort keyLE) :=
    (List.mergeSort_perm l1 keyLE).trans
      (hp.trans (List.mergeSort_perm l2 keyLE).symm)
  have hs1 := List.sorted_mergeSort keyLE_trans keyLE_total l1
  have hs2 := List.sorted_mergeSort keyLE_trans keyLE_total l2
  have hnd1 : ((l1.mergeSort keyLE).map Prod.fst).Nodup :=
    (List.Perm.map Prod.fst (List.mergeSort_perm l1 keyLE)).nodup_iff.mpr hnd
  have hnd2 : ((l2.mergeSort keyLE).map Prod.fst).Nodup := by
    have h2 : (l2.map Prod.fst).Nodup :=
      (List.Perm.map Prod.fst hp).nodup_iff.mp hnd
    exact (List.Perm.map Prod.fst (List.mergeSort_perm l2 keyLE)).nodup_iff.mpr
      h2
  have hlt1 : List.Sorted (fun a b : String × ℚ => a.1 < b.1)
      (l1.mergeSort keyLE) := by
    have hne := List.pairwise_map.mp hnd1
    exact (hs1.and hne).imp (fun hab =>
      lt_of_le_of_ne (by simpa [keyLE] using hab.1) hab.2)
  have hlt2 : List.Sorted (fun a b : String × ℚ => a.1 < b.1)
      (l2.mergeSort keyLE) := by
    have hne := List.pairwise_map.mp hnd2
    exact (hs2.and hne).imp (fun hab =>
      lt_of_le_of_ne (by simpa [keyLE] using hab.1) hab.2)
  haveI : IsAntisymm (String × ℚ) (fun a b => a.1 < b.1) :=
    ⟨fun _ _ h h' => absurd h' (lt_asymm h)⟩
  exact List.eq_of_perm_of_sorted hperm hlt1 hlt2

/-- **C3.** Two balance mappings assigning identical quota values to
identical account keys — regardless of their used-quota values and of key
insertion order — hash identically.  The mappings are association lists with
duplicate-free keys (as Python dicts are); assigning the same quotas to the
same keys is expressed as the key-quota projections being permutations of
one another. -/
theorem claim_C3_hash_quota_invariance (b1 b2 : List (String × BalanceVal))
    (hnd : (b1.map Prod.fst).Nodup)
    (hp : (b1.map (fun p => (p.1, p.2.quota))).Perm
      (b2.map (fun p => (p.1, p.2.quota)))) :
    generate_balance_hash b1 = generate_balance_hash b2 := by
  have hlen : b1.length = b2.length := by
    have := hp.length_eq
    simpa using this
  have key : ∀ b : List (String × BalanceVal), b ≠ [] →
      generate_balance_hash b =
        pyTake 16 (hexOfBytes (sha256 (utf8Str
          (dumpsSortedNums (b.map (fun p => (p.1, p.2.quota))))))) := by
    intro b hb
    rcases b with _ | ⟨p, r⟩
    · exact absurd rfl hb
    · rfl
  by_cases hb : b1 = []
  · subst hb
    have hb2 : b2 = [] := List.length_eq_zero.mp hlen.symm
    subst hb2
    rfl
  · have hb2 : b2 ≠ [] := by
      intro h
      subst h
      exact hb (List.length_eq_zero.mp hlen)
    rw [key b1 hb, key b2 hb2]
    have hdump : dumpsSortedNums (b1.map (fun p => (p.1, p.2.quota))) =
        dumpsSortedNums (b2.map (fun p => (p.1, p.2.quota))) := by
      unfold dumpsSortedNums
      rw [mergeSort_keyLE_eq _ _ ?keys hp]
      case keys =>
        have hcomp : (b1.map (fun p => (p.1, p.2.quota))).map Prod.fst =
            b1.map Prod.fst := by
          rw [List.map_map]
          rfl
        rw [hcomp]
        exact hnd
    rw [hdump]

/-- A two-account balance snapshot used by the C3 witness. -/
def b1W : List (String × BalanceVal) :=
  [("account_1", ⟨10, 3⟩), ("account_2", ⟨7, 1⟩)]

/-- The same quotas as `b1W` with different used values and reversed
insertion order. -/
def b2W : List (String × BalanceVal) :=
  [("account_2", ⟨7, 99⟩), ("account_1", ⟨10, 0⟩)]

/-- Witness for C3 at a concrete input: reordering the entries and changing
the used-quota values leaves the hash unchanged. -/
theorem claim_C3_witness :
    (b1W.map Prod.fst).Nodup ∧
    (b1W.map (fun p => (p.1, p.2.quota))).Perm
      (b2W.map (fun p => (p.1, p.2.quota))) ∧
    generate_balance_hash b1W = generate_balance_hash b2W :=
  ⟨by decide, List.Perm.swap _ _ _,
   claim_C3_hash_quota_invariance b1W b2W (by decide)
     (List.Perm.swap _ _ _)⟩

/-! ## C4: what `load_accounts` actually validates -/

/-- **C4, counterexample.**  `load_accounts` accepts an account whose
`api_user` value is the empty string: the claimed invariant "`api_user`
value is a non-empty string" does not hold for the returned list. -/
theorem claim_C4_counterexample :
    load_accounts (some (.arr
        [.obj [("cookies", .str "a=1"), ("api_user", .str "")]])) =
      some [.obj [("cookies", .str "a=1"), ("api_user", .str "")]] ∧
    pyTruthy (dictGetD [("cookies", .str "a=1"), ("api_user", .str "")]
      "api_user" .null) = false :=
  ⟨rfl, rfl⟩

/-- **C4, amended.**  Every element of an account list returned by
`load_accounts` is an object containing the keys `cookies` and `api_user`
(their values are not inspected — `api_user` may be empty), and whose
`name` value, when present, is truthy. -/
theorem claim_C4_load_accounts_validation (j : Json) (l : List Json)
    (h : load_accounts (some j) = some l) :
    ∀ a ∈ l, ∃ fields, a = .obj fields ∧
      (fields.any (fun p => p.1 == "cookies")) = true ∧
      (fields.any (fun p => p.1 == "api_user")) = true ∧
      (∀ v, List.lookup "name" fields = some v → pyTruthy v = true) := by
  intro a ha
  have hval : validAccount a = true := by
    unfold load_accounts at h
    rcases j with _ | b | q | s | xs | fs
    · cases h
    · cases h
    · cases h
    · cases h
    · dsimp only at h
      by_cases hall : xs.all validAccount
      · rw [if_pos hall] at h
        cases h
        exact List.all_eq_true.mp hall a ha
      · rw [if_neg hall] at h
        cases h
    · cases h
  rcases a with _ | b | q | s | xs | fields
  · simp [validAccount] at hval
  · simp [validAccount] at hval
  · simp [validAccount] at hval
  · simp [validAccount] at hval
  · simp [validAccount] at hval
  · refine ⟨fields, rfl, ?_, ?_, ?_⟩
    all_goals
      unfold validAccount at hval
      simp only [Bool.and_eq_true] at hval
    · exact hval.1.1
    · exact hval.1.2
    · intro v hv
      have h3 := hval.2
      rw [hv] at h3
      exact h3

/-- Witness for the amended C4 at a concrete input: the single valid account
`acctW` passes validation with both required keys present. -/
theorem claim_C4_witness :
    ∃ fields, acctW = Json.obj fields ∧
      (fields.any (fun p => p.1 == "cookies")) = true ∧
      (fields.any (fun p => p.1 == "api_user")) = true ∧
      (∀ v, List.lookup "name" fields = some v → pyTruthy v = true) :=
  claim_C4_load_accounts_validation (.arr [acctW]) [acctW] rfl acctW
    (List.mem_cons_self _ _)

/-! ## C10: early failures in `check_in_account` -/

/-- Characters of any fragment produced by `split` come from the original
string. -/
theorem splitOnChar_mem (c : Char) (l : List Char) :
    ∀ p ∈ splitOnChar c l, ∀ x ∈ p, x ∈ l := by
  induction l with
  | nil =>
    intro p hp x hx
    simp [splitOnChar] at hp
    subst hp
    cases hx
  | cons y ys ih =>
    intro p hp x hx
    by_cases hy : y = c
    · rw [splitOnChar, if_pos hy] at hp
      rcases List.mem_cons.mp hp with h | h
      · subst h
        cases hx
      · exact List.mem_cons_of_mem y (ih p h x hx)
    · rw [splitOnChar, if_neg hy] at hp
      rcases hrec : splitOnChar c ys with _ | ⟨q, ps⟩
      · rw [hrec] at hp
        rcases List.mem_cons.mp hp with h | h
        · subst h
          rcases List.mem_singleton.mp hx with rfl
          exact List.mem_cons_self x ys
        · cases h
      · rw [hrec] at hp
        rcases List.mem_cons.mp hp with h | h
        · subst h
          rcases List.mem_cons.mp hx with rfl | hxq
          · exact List.mem_cons_self x ys
          · refine List.mem_cons_of_mem y (ih q ?_ x hxq)
            rw [hrec]
            exact List.mem_cons_self q ps
        · refine List.mem_cons_of_mem y (ih p ?_ x hx)
          rw [hrec]
          exact List.mem_cons_of_mem q h

/-- Fragments without `'='` leave the cookie dict untouched. -/
theorem foldl_cookieStep_no_eq (frags : List (List Char))
    (hf : ∀ p ∈ frags, p.any (fun ch => ch == '=') = false) :
    ∀ d, frags.foldl cookieStep d = d := by
  induction frags with
  | nil => intro d; rfl
  | cons p ps ih =>
    intro d
    have hp := hf p (List.mem_cons_self p ps)
    have hstep : cookieStep d p = d := by
      unfold cookieStep
      rw [hp]
      rfl
    rw [List.foldl_cons, hstep]
    exact ih (fun q hq => hf q (List.mem_cons_of_mem p hq)) d

/-- **C10.** An account record whose `api_user` value is empty, or whose
cookies value parses to the empty mapping, makes `check_in_account` fail
with `(False, None)` before the browser or the HTTP client are consulted
(the result is the same for every oracle); a cookies value that is neither a
dict nor a string, or a string containing no `'='`, parses to the empty
mapping. -/
theorem claim_C10_early_failure (account : List (String × Json)) :
    (∀ env : CheckInEnv, dictGetD account "api_user" (.str "") = .str "" →
      check_in_account account env = (false, none)) ∧
    (∀ env : CheckInEnv,
      parse_cookies (dictGetD account "cookies" (.obj [])) = [] →
      check_in_account account env = (false, none)) ∧
    (∀ j : Json, (∀ f, j ≠ .obj f) → (∀ s, j ≠ .str s) →
      parse_cookies j = []) ∧
    (∀ s : String, (∀ ch ∈ s.data, ch ≠ '=') →
      parse_cookies (.str s) = []) := by
  refine ⟨?_, ?_, ?_, ?_⟩
  · intro env h
    unfold check_in_account
    rw [h]
    rfl
  · intro env h
    by_cases ha : pyTruthy (dictGetD account "api_user" (.str "")) = true
    · simp [check_in_account, ha, h]
    · rw [Bool.not_eq_true] at ha
      simp [check_in_account, ha]
  · intro j hobj hstr
    rcases j with _ | b | q | s | xs | fs
    · rfl
    · rfl
    · rfl
    · exact absurd rfl (hstr s)
    · rfl
    · exact absurd rfl (hobj fs)
  · intro s hs
    show (splitOnChar ';' s.data).foldl cookieStep [] = []
    refine foldl_cookieStep_no_eq _ ?_ []
    intro p hp
    rw [List.any_eq_false]
    intro ch hch
    have hmem := splitOnChar_mem ';' s.data p hp ch hch
    have := hs ch hmem
    simpa using this

/-- A fixed oracle environment used by the C10 witness. -/
def envC : CheckInEnv :=
  { waf := some [("acw_tc", "t")], fetch := .exn "e", post := .exn "e" }

/-- Witness for C10 at concrete inputs: an empty `api_user`, an
unparsable cookie string, a numeric cookies value and an `'='`-free cookie
string. -/
theorem claim_C10_witness :
    check_in_account [("cookies", .str "a=1"), ("api_user", .str "")] envC =
      (false, none) ∧
    check_in_account [("cookies", .str "abc"), ("api_user", .str "u")] envC =
      (false, none) ∧
    parse_cookies (.num 5) = [] ∧
    parse_cookies (.str "abc") = [] := by
  refine ⟨?_, ?_, ?_, ?_⟩
  · exact (claim_C10_early_failure _).1 envC rfl
  · exact (claim_C10_early_failure _).2.1 envC rfl
  · exact (claim_C10_early_failure []).2.2.1 (.num 5)
      (fun f h => Json.noConfusion h) (fun s h => Json.noConfusion h)
  · exact (claim_C10_early_failure []).2.2.2 "abc" (by decide)

/-! ## C5: the check-in success condition -/

/-- **C5.** For an account that passes the early checks (truthy `api_user`,
non-empty parsed cookies, a non-empty WAF cookie set), the check-in declares
success iff the HTTP status is 200 and either the JSON body is an object
with `ret == 1`, `code == 0` or a truthy `success` field, or — when the body
is not valid JSON — the substring `"success"` (case-insensitively) occurs in
the raw response text; every other outcome (including a raised request and a
valid but non-object JSON body) is a failure. -/
theorem claim_C5_checkin_success_iff (account : List (String × Json))
    (waf : List (String × String)) (fetch : HttpFetch)
    (h1 : pyTruthy (dictGetD account "api_user" (.str "")) = true)
    (h2 : parse_cookies (dictGetD account "cookies" (.obj [])) ≠ [])
    (h3 : waf ≠ []) :
    (∀ (status : Nat) (text : String) (body : Except String Json),
      ((check_in_account account
          ⟨some waf, fetch, .resp status text body⟩).1 = true ↔
        (status = 200 ∧
          ((∃ fields, body = .ok (.obj fields) ∧
              (pyEqNum (dictGetD fields "ret" .null) 1 = true ∨
               pyEqNum (dictGetD fields "code" .null) 0 = true ∨
               pyTruthy (dictGetD fields "success" .null) = true)) ∨
            (∃ e, body = .error e ∧
              containsSub (pyLower text) "success" = true))))) ∧
    (∀ m, (check_in_account account ⟨some waf, fetch, .exn m⟩).1 = false) := by
  have h2' : (parse_cookies (dictGetD account "cookies" (.obj []))).isEmpty
      = false := by
    rcases hE : parse_cookies (dictGetD account "cookies" (.obj []))
      with _ | ⟨x, xs⟩
    · exact absurd hE h2
    · rfl
  have h3' : waf.isEmpty = false := by
    rcases hW : waf with _ | ⟨w, ws⟩
    · exact absurd hW h3
    · rfl
  constructor
  · intro status text body
    by_cases hs : status = 200
    · rcases body with e | j
      · -- not valid JSON: substring check on the lowered text
        by_cases hc : containsSub (pyLower text) "success" = true
        · simp [check_in_account, h1, h2', h3', hs, hc]
        · simp [check_in_account, h1, h2', h3', hs, hc]
      · rcases j with _ | b | q | s | xs | fields
        · simp [check_in_account, h1, h2', h3', hs]
        · simp [check_in_account, h1, h2', h3', hs]
        · simp [check_in_account, h1, h2', h3', hs]
        · simp [check_in_account, h1, h2', h3', hs]
        · simp [check_in_account, h1, h2', h3', hs]
        · by_cases hB : (pyEqNum (dictGetD fields "ret" .null) 1 ||
              pyEqNum (dictGetD fields "code" .null) 0 ||
              pyTruthy (dictGetD fields "success" .null)) = true
          · simp only [Bool.or_eq_true] at hB
            simp [check_in_account, h1, h2', h3', hs, hB]
            tauto
          · simp only [Bool.or_eq_true] at hB
            push_neg at hB
            simp only [Bool.not_eq_true] at hB
            simp [check_in_account, h1, h2', h3', hs, hB.1.1, hB.1.2, hB.2]
    · rcases body with e | j <;>
        simp [check_in_account, h1, h2', h3', hs]
  · intro m
    simp [check_in_account, h1, h2', h3']

/-- Witness for C5 at a concrete input: account `acctW` with a singleton WAF
cookie set and a 200 response whose JSON body is the object
`\x7b"ret": 1\x7d` is declared a success. -/
theorem claim_C5_witness :
    pyTruthy (dictGetD [("cookies", Json.str "a=1"),
        ("api_user", Json.str "u1")] "api_user" (.str "")) = true ∧
    parse_cookies (dictGetD [("cookies", Json.str "a=1"),
        ("api_user", Json.str "u1")] "cookies" (.obj [])) ≠ [] ∧
    (check_in_account [("cookies", Json.str "a=1"), ("api_user", Json.str "u1")]
        ⟨some [("acw_tc", "t")], .exn "e",
          .resp 200 "" (.ok (.obj [("ret", .num 1)]))⟩).1 = true := by
  refine ⟨rfl, ?hne, ?_⟩
  case hne =>
    intro h
    cases h
  · have h := (claim_C5_checkin_success_iff
      [("cookies", Json.str "a=1"), ("api_user", Json.str "u1")]
      [("acw_tc", "t")] (.exn "e") rfl ?hne2 ?hw).1 200 ""
      (.ok (.obj [("ret", .num 1)]))
    case hne2 =>
      intro h
      cases h
    case hw =>
      intro h
      cases h
    exact h.mpr ⟨rfl, Or.inl ⟨[("ret", .num 1)], rfl, Or.inl (by decide)⟩⟩

/-! ## C6: the shape of `get_user_info` failures -/

/-- The truncated slice has at most `n` characters. -/
theorem pyTake_length_le (n : Nat) (s : String) : (pyTake n s).length ≤ n := by
  show (s.data.take n).length ≤ n
  rw [List.length_take]
  exact min_le_left n s.data.length

/-- The only failure record the 200-branch can return without raising is the
generic `HTTP 200` message. -/
theorem userInfoOf200_failure (body : Json) (e : String)
    (h : userInfoOf200 body = .ok (.failure e)) :
    e = "Failed to get user info: HTTP 200" := by
  unfold userInfoOf200 at h
  split at h
  · split at h
    · split at h
      · split at h
        · exact Except.noConfusion h
        · exact Except.noConfusion h
        · simp at h
      · exact Except.noConfusion h
    · simp only [Except.ok.injEq, UserInfo.failure.injEq] at h
      exact h.symm
  · exact Except.noConfusion h

/-- **C6, counterexample.**  A request-level failure whose exception text has
60 characters produces a failure record whose error message has 78
characters: the error message itself is not truncated to 50 characters (only
the embedded exception text is). -/
theorem claim_C6_counterexample :
    get_user_info (.exn (String.mk (List.replicate 60 'a'))) =
      .failure ("Failed to get user info: " ++
        String.mk (List.replicate 50 'a') ++ "...") ∧
    ("Failed to get user info: " ++ String.mk (List.replicate 50 'a') ++
      "...").length = 78 ∧
    ¬ ("Failed to get user info: " ++ String.mk (List.replicate 50 'a') ++
      "...").length ≤ 50 := by
  refine ⟨?_, by decide, by decide⟩
  show UserInfo.failure _ = _
  rw [UserInfo.failure.injEq]
  decide

/-- **C6, amended.**  `get_user_info` is total over every response and
exception (it never raises), and every failure record it returns carries
either the fixed `"Failed to get user info: HTTP <status>"` message or a
message embedding an exception text truncated to at most 50 characters
between a fixed prefix and a trailing ellipsis. -/
theorem claim_C6_fetch_failure_shape (r : HttpFetch) :
    ∀ e, get_user_info r = .failure e →
      ((∃ status : Nat, status ≠ 200 ∧
          e = "Failed to get user info: HTTP " ++ toString status) ∨
        e = "Failed to get user info: HTTP 200" ∨
        (∃ t, e = "Failed to get user info: " ++ pyTake 50 t ++ "..." ∧
          (pyTake 50 t).length ≤ 50)) := by
  intro e he
  rcases r with m | ⟨status, body⟩
  · refine Or.inr (Or.inr ⟨m, ?_, pyTake_length_le 50 m⟩)
    unfold get_user_info at he
    cases he
    rfl
  · by_cases hs : status = 200
    · subst hs
      unfold get_user_info at he
      dsimp only at he
      rw [if_pos rfl] at he
      rcases hu : userInfoOf200 body with err | u <;> rw [hu] at he
      · refine Or.inr (Or.inr ⟨err, ?_, pyTake_length_le 50 err⟩)
        cases he
        rfl
      · rcases u with ⟨q, uu, d⟩ | msg
        · exact UserInfo.noConfusion he
        · injection he with hmsg
          subst hmsg
          exact Or.inr (Or.inl (userInfoOf200_failure body _ hu))
    · unfold get_user_info at he
      dsimp only at he
      rw [if_neg hs] at he
      cases he
      exact Or.inl ⟨status, hs, rfl⟩

/-- Witness for the amended C6 at a concrete input: a 404 response yields
the fixed HTTP-status message. -/
theorem claim_C6_witness :
    (∃ status : Nat, status ≠ 200 ∧
        "Failed to get user info: HTTP 404" =
          "Failed to get user info: HTTP " ++ toString status) ∨
      "Failed to get user info: HTTP 404" =
        "Failed to get user info: HTTP 200" ∨
      (∃ t, "Failed to get user info: HTTP 404" =
          "Failed to get user info: " ++ pyTake 50 t ++ "..." ∧
        (pyTake 50 t).length ≤ 50) :=
  claim_C6_fetch_failure_shape (.resp 404 .null)
    "Failed to get user info: HTTP 404" rfl

/-! ## C9: quota scaling and rounding -/

/-- **C9.** On a successful profile fetch the returned quota and used-quota
values are the raw integers from the response divided by 500000 and rounded
(half-to-even, as Python's `round`) to 2 decimal places; in particular each
is an integer multiple of 1/100. -/
theorem claim_C9_quota_scaling (rawQ rawU : ℤ) :
    get_user_info (.resp 200 (.obj [("success", .bool true),
        ("data", .obj [("quota", .num (rawQ : ℚ)),
          ("used_quota", .num (rawU : ℚ))])])) =
      .ok (pyRound2 ((rawQ : ℚ) / 500000)) (pyRound2 ((rawU : ℚ) / 500000))
        (format_balance_display (pyRound2 ((rawQ : ℚ) / 500000))
          (pyRound2 ((rawU : ℚ) / 500000))) ∧
    (∃ n : ℤ, pyRound2 ((rawQ : ℚ) / 500000) = (n : ℚ) / 100) ∧
    (∃ n : ℤ, pyRound2 ((rawU : ℚ) / 500000) = (n : ℚ) / 100) :=
  ⟨rfl,
   ⟨roundHalfEven ((rawQ : ℚ) / 500000 * 100), rfl⟩,
   ⟨roundHalfEven ((rawU : ℚ) / 500000 * 100), rfl⟩⟩
